import Mathlib

/-!
Verification of the endpoint-configuration and provider-routing layer of the
zen-mcp-server provider package.

The Python sources are shallowly embedded over `Str := List Char`:

* `utils/endpoint_config.py` (`EndpointConfig`): `load_endpoints`
  (`_load_endpoints`), `get_endpoint_for_model`, `normalize_model_name`
  (`_normalize_model_name`), `has_custom_endpoint`.
* `providers/openai_provider.py` (`OpenAIModelProvider`): `SUPPORTED_MODELS`,
  `openai_provider_init` (`__init__`), `get_capabilities`,
  `validate_model_name`, and a fueled `generate_content`.
* `providers/unified_openai.py` (`UnifiedOpenAIProvider`):
  `u_load_model_endpoints`, `u_get_endpoint_for_model`,
  `u_get_underlying_provider`, `u_count_tokens`.

Python's `str.lower`/`str.isalnum` are modelled by Lean's ASCII
`Char.toLower`/`Char.isAlphanum`; the environment is a read-only association
list, a Python `dict` is an association list whose insertion replaces in
place and otherwise appends (matching `dict.__setitem__`), and file reading
plus JSON parsing is a parameter `Str → Option Table` where `none` models any
read or parse failure.
-/

namespace ZenMcp

/-- Strings are modelled as lists of characters. -/
abbrev Str := List Char

/-- Coerce a Lean string literal into the `Str` model. -/
def str (s : String) : Str := s.toList

/-- A custom endpoint record: the value type of the endpoint tables built by
`EndpointConfig._load_endpoints` (a `base_url` and an `api_key`). -/
structure EndpointEntry where
  base_url : Str
  api_key : Str
deriving DecidableEq

/-- An endpoint table: the Python `dict` mapping model names to endpoint
records, in insertion order. -/
abbrev Table := List (Str × EndpointEntry)

/-- Lookup in a Python-`dict`-like association list (first match). -/
def dictLookup {α : Type} (tbl : List (Str × α)) (k : Str) : Option α :=
  (tbl.find? (fun p => p.1 = k)).map (fun p => p.2)

/-- Python `dict` assignment `d[k] = v`: replace in place if the key is
present, append otherwise. -/
def dictInsert {α : Type} (k : Str) (v : α) : List (Str × α) → List (Str × α)
  | [] => [(k, v)]
  | (k0, v0) :: rest =>
    if k0 = k then (k, v) :: rest else (k0, v0) :: dictInsert k v rest

/-- Python `os.environ.get` / `os.getenv` over the environment model. -/
def getenv (env : List (Str × Str)) (name : Str) : Option Str :=
  (env.find? (fun e => e.1 = name)).map (fun e => e.2)

/-- Python `os.getenv(name, default)`. -/
def getenvD (env : List (Str × Str)) (name : Str) (d : Str) : Str :=
  (getenv env name).getD d

/-- Python `s.lower()` (ASCII model). -/
def lowerStr (s : Str) : Str := s.map Char.toLower

/-- Python `s.upper()` (ASCII model). -/
def upperStr (s : Str) : Str := s.map Char.toUpper

/-- Python `s.replace('-', '')`. -/
def stripDashes (s : Str) : Str := s.filter (fun c => c ≠ '-')

/-- Python `s.lower().replace('_', '-')`, the key derivation used by both
loaders (`endpoint_config.py` line 42-44, `unified_openai.py` line 33). -/
def lowerDashStr (s : Str) : Str :=
  (s.map Char.toLower).map (fun c => if c = '_' then '-' else c)

/-- `EndpointConfig._normalize_model_name` (endpoint_config.py lines 102-120):
lowercase, underscores to dashes, then drop every character that is neither
alphanumeric nor a dash. -/
def normalize_model_name (s : Str) : Str :=
  ((s.map Char.toLower).map (fun c => if c = '_' then '-' else c)).filter
    (fun c => c.isAlphanum || c = '-')

/-- The `for configured_model, config in self._endpoints.items()` loop of
`get_endpoint_for_model` (endpoint_config.py lines 91-98): for each configured
key, first a case-insensitive comparison, then a dash-stripped comparison,
before moving to the next key.  `nl` is `normalized_lower`. -/
def get_endpoint_for_model_loop (nl : Str) : Table → Option EndpointEntry
  | [] => none
  | (ck, cfg) :: rest =>
    if lowerStr ck = nl then some cfg
    else if stripDashes (lowerStr ck) = stripDashes nl then some cfg
    else get_endpoint_for_model_loop nl rest

/-- `EndpointConfig.get_endpoint_for_model` (endpoint_config.py lines 73-100):
normalize the query, try an exact dictionary hit, then run the per-key loop. -/
def get_endpoint_for_model (tbl : Table) (model_name : Str) : Option EndpointEntry :=
  let n := normalize_model_name model_name
  match dictLookup tbl n with
  | some cfg => some cfg
  | none => get_endpoint_for_model_loop (lowerStr n) tbl

/-- `EndpointConfig.has_custom_endpoint` (endpoint_config.py lines 122-134). -/
def has_custom_endpoint (tbl : Table) (model_name : Str) : Bool :=
  (get_endpoint_for_model tbl model_name).isSome

/-- The environment-variable suffix `"_ENDPOINT"` tested by both loaders. -/
def sufENDPOINT : Str := str "_ENDPOINT"

/-- The environment-variable suffix `"_API_KEY"` built by both loaders. -/
def sufAPIKEY : Str := str "_API_KEY"

/-- Whether an environment-variable name matches
`key.startswith(prefix) and key.endswith("_ENDPOINT")`
(endpoint_config.py line 37). -/
def envKeyMatches (pfx key : Str) : Bool :=
  pfx.isPrefixOf key && sufENDPOINT.isSuffixOf key

/-- The slice `key[len(prefix):-len("_ENDPOINT")]` (endpoint_config.py
line 40), i.e. the raw `model_part`. -/
def sliceModelPart (pfx key : Str) : Str :=
  (key.drop pfx.length).take ((key.drop pfx.length).length - sufENDPOINT.length)

/-- The normalized table key an endpoint variable produces
(endpoint_config.py lines 42-44). -/
def derivedModelName (pfx key : Str) : Str := lowerDashStr (sliceModelPart pfx key)

/-- The environment scan of `EndpointConfig._load_endpoints`
(endpoint_config.py lines 36-57): iterate the environment, and for every key
matching `<PREFIX><MODEL>_ENDPOINT` store the value under the derived model
name together with the `<PREFIX><MODEL>_API_KEY` value (empty if absent).
`fullEnv` is the environment consulted by `os.getenv` for the API key. -/
def load_from_env_go (pfx : Str) (fullEnv : List (Str × Str)) :
    List (Str × Str) → Table → Table
  | [], acc => acc
  | (key, value) :: rest, acc =>
    load_from_env_go pfx fullEnv rest
      (if envKeyMatches pfx key then
        dictInsert (derivedModelName pfx key)
          ⟨value, getenvD fullEnv (pfx ++ sliceModelPart pfx key ++ sufAPIKEY) []⟩ acc
      else acc)

/-- The environment-derived part of the endpoint table. -/
def load_from_env (pfx : Str) (env : List (Str × Str)) : Table :=
  load_from_env_go pfx env env []

/-- The `<PROVIDER upper>_` variable stem: the code lowercases the provider
type at construction and uppercases it again when building names. -/
def providerStem (provider_type : Str) : Str := upperStr (lowerStr provider_type)

/-- The scan stem `f"{self.provider_type.upper()}_"` (endpoint_config.py
line 33). -/
def providerPfx (provider_type : Str) : Str := providerStem provider_type ++ [ '_' ]

/-- The name of the JSON-config variable,
`f"{self.provider_type.upper()}_ENDPOINTS_CONFIG"` (endpoint_config.py
line 60). -/
def configVarName (provider_type : Str) : Str :=
  providerStem provider_type ++ str "_ENDPOINTS_CONFIG"

/-- `EndpointConfig._load_endpoints` (endpoint_config.py lines 22-71): the
environment scan, then — when the config variable names a (truthy, i.e.
non-empty) path — a JSON read.  `readCfg path = some es` models a successful
read of the file's `<provider>_endpoints` object as the entry list `es`,
merged on top with `dict.update`; `readCfg path = none` models any read or
parse failure, which the code catches and logs as a warning, leaving the
table unchanged. -/
def load_endpoints (provider_type : Str) (env : List (Str × Str))
    (readCfg : Str → Option (List (Str × EndpointEntry))) : Table :=
  let base := load_from_env (providerPfx provider_type) env
  match getenv env (configVarName provider_type) with
  | none => base
  | some path =>
    if path = [] then base
    else
      match readCfg path with
      | none => base
      | some es => es.foldl (fun acc kv => dictInsert kv.1 kv.2 acc) base

/-- Provider-type tags (`providers/base.py`, referenced by the sources). -/
inductive ProviderType where
  | OPENAI | GOOGLE | XAI | DIAL | CUSTOM | OPENROUTER | UNIFIED
deriving DecidableEq

/-- The temperature-constraint kind passed to `create_temperature_constraint`
(only `"fixed"` and `"range"` occur in `openai_provider.py`). -/
inductive TempConstraintKind where
  | fixed | range
deriving DecidableEq

/-- Capability descriptor (`providers/base.py` `ModelCapabilities`), with the
fields populated by `openai_provider.py`; the float field
`max_image_size_mb` (always the integral `20.0`) is carried as a `Nat`. -/
structure ModelCapabilities where
  provider : ProviderType
  model_name : Str
  friendly_name : Str
  context_window : Nat
  max_output_tokens : Nat
  supports_extended_thinking : Bool
  supports_system_prompts : Bool
  supports_streaming : Bool
  supports_function_calling : Bool
  supports_json_mode : Bool
  supports_images : Bool
  max_image_size_mb : Nat
  supports_temperature : Bool
  temperature_constraint : TempConstraintKind
  description : Str
  aliases : List Str
deriving DecidableEq

/-- `OpenAIModelProvider.SUPPORTED_MODELS` (openai_provider.py lines 26-117),
in source order. -/
def SUPPORTED_MODELS : List (Str × ModelCapabilities) :=
  [ (str "o3",
     { provider := ProviderType.OPENAI
       model_name := str "o3"
       friendly_name := str "OpenAI (O3)"
       context_window := 200000
       max_output_tokens := 65536
       supports_extended_thinking := false
       supports_system_prompts := true
       supports_streaming := true
       supports_function_calling := true
       supports_json_mode := true
       supports_images := true
       max_image_size_mb := 20
       supports_temperature := false
       temperature_constraint := TempConstraintKind.fixed
       description := str "Strong reasoning (200K context) - Logical problems, code generation, systematic analysis"
       aliases := [] }),
    (str "o3-mini",
     { provider := ProviderType.OPENAI
       model_name := str "o3-mini"
       friendly_name := str "OpenAI (O3-mini)"
       context_window := 200000
       max_output_tokens := 65536
       supports_extended_thinking := false
       supports_system_prompts := true
       supports_streaming := true
       supports_function_calling := true
       supports_json_mode := true
       supports_images := true
       max_image_size_mb := 20
       supports_temperature := false
       temperature_constraint := TempConstraintKind.fixed
       description := str "Fast O3 variant (200K context) - Balanced performance/speed, moderate complexity"
       aliases := [ str "o3mini", str "o3-mini" ] }),
    (str "o3-pro-2025-06-10",
     { provider := ProviderType.OPENAI
       model_name := str "o3-pro-2025-06-10"
       friendly_name := str "OpenAI (O3-Pro)"
       context_window := 200000
       max_output_tokens := 65536
       supports_extended_thinking := false
       supports_system_prompts := true
       supports_streaming := true
       supports_function_calling := true
       supports_json_mode := true
       supports_images := true
       max_image_size_mb := 20
       supports_temperature := false
       temperature_constraint := TempConstraintKind.fixed
       description := str "Professional-grade reasoning (200K context) - EXTREMELY EXPENSIVE: Only for the most complex problems requiring universe-scale complexity analysis OR when the user explicitly asks for this model. Use sparingly for critical architectural decisions or exceptionally complex debugging that other models cannot handle."
       aliases := [ str "o3-pro" ] }),
    (str "o4-mini",
     { provider := ProviderType.OPENAI
       model_name := str "o4-mini"
       friendly_name := str "OpenAI (O4-mini)"
       context_window := 200000
       max_output_tokens := 65536
       supports_extended_thinking := false
       supports_system_prompts := true
       supports_streaming := true
       supports_function_calling := true
       supports_json_mode := true
       supports_images := true
       max_image_size_mb := 20
       supports_temperature := false
       temperature_constraint := TempConstraintKind.fixed
       description := str "Latest reasoning model (200K context) - Optimized for shorter contexts, rapid reasoning"
       aliases := [ str "mini", str "o4mini", str "o4-mini" ] }),
    (str "gpt-4.1-2025-04-14",
     { provider := ProviderType.OPENAI
       model_name := str "gpt-4.1-2025-04-14"
       friendly_name := str "OpenAI (GPT 4.1)"
       context_window := 1000000
       max_output_tokens := 32768
       supports_extended_thinking := false
       supports_system_prompts := true
       supports_streaming := true
       supports_function_calling := true
       supports_json_mode := true
       supports_images := true
       max_image_size_mb := 20
       supports_temperature := true
       temperature_constraint := TempConstraintKind.range
       description := str "GPT-4.1 (1M context) - Advanced reasoning model with large context window"
       aliases := [ str "gpt4.1" ] }) ]

/-- Modelled from the spec: `OpenAICompatibleProvider._resolve_model_name`
(providers/openai_compatible.py) is not among the sources; only its callers
are.  Per spec section 4.2: given a requested name, first check whether it is
a canonical key of the table; if not, scan all descriptors' alias lists for a
case-insensitive exact match and return the owning canonical key; if no
match, the name is passed through unresolved. -/
def resolveModelName (m : Str) : Str :=
  if (dictLookup SUPPORTED_MODELS m).isSome then m
  else
    match SUPPORTED_MODELS.find?
        (fun p => p.2.aliases.any (fun a => lowerStr a = lowerStr m)) with
    | some p => p.1
    | none => m

/-- The restriction-policy collaborator (`utils/model_restrictions.py`, out
of scope per spec section 6): `is_allowed(provider_type, canonical,
requested)` is an arbitrary boolean predicate parameter. -/
abbrev RestrictionPolicy := ProviderType → Str → Str → Bool

/-- The message of `ValueError(f"Unsupported OpenAI model: {model_name}")`
(openai_provider.py line 153). -/
def unsupportedMsg (m : Str) : Str := str "Unsupported OpenAI model: " ++ m

/-- The message of the restriction-policy `ValueError`
(openai_provider.py line 160). -/
def notAllowedMsg (m : Str) : Str :=
  str "OpenAI model '" ++ m ++ str "' is not allowed by restriction policy."

/-- `OpenAIModelProvider.get_capabilities` (openai_provider.py lines
147-163): resolve the shorthand, reject unknown resolved names, consult the
restriction policy, otherwise return the descriptor.  `Except.error` models
`raise ValueError`. -/
def get_capabilities (isAllowed : RestrictionPolicy) (model_name : Str) :
    Except Str ModelCapabilities :=
  let resolved := resolveModelName model_name
  match dictLookup SUPPORTED_MODELS resolved with
  | none => Except.error (unsupportedMsg model_name)
  | some caps =>
    if isAllowed ProviderType.OPENAI resolved model_name then Except.ok caps
    else Except.error (notAllowedMsg model_name)

/-- `OpenAIModelProvider.validate_model_name` (openai_provider.py lines
169-185). -/
def validate_model_name (isAllowed : RestrictionPolicy) (model_name : Str) : Bool :=
  let resolved := resolveModelName model_name
  match dictLookup SUPPORTED_MODELS resolved with
  | none => false
  | some _ => isAllowed ProviderType.OPENAI resolved model_name

/-- The result of `OpenAIModelProvider.__init__` that is observable through
the adapter: the base URL and API key handed to
`OpenAICompatibleProvider.__init__`. -/
structure InitResult where
  base_url : Str
  api_key : Str
deriving DecidableEq

/-- The default base URL (openai_provider.py line 143). -/
def defaultOpenAIBaseUrl : Str := str "https://api.openai.com/v1"

/-- `OpenAIModelProvider.__init__` (openai_provider.py lines 119-145): when a
(truthy) model name is supplied and the resolver reports an override, the
override's base URL is used and its API key replaces the supplied key exactly
when non-empty; otherwise the caller-supplied `base_url` keyword or, absent
that, the well-known default is used. -/
def openai_provider_init (tbl : Table) (api_key : Str) (model_name : Option Str)
    (kw_base_url : Option Str) : InitResult :=
  match model_name with
  | some m =>
    if m ≠ [] then
      match get_endpoint_for_model tbl m with
      | some ec =>
        { base_url := ec.base_url
          api_key := if ec.api_key ≠ [] then ec.api_key else api_key }
      | none =>
        { base_url := kw_base_url.getD defaultOpenAIBaseUrl, api_key := api_key }
    else { base_url := kw_base_url.getD defaultOpenAIBaseUrl, api_key := api_key }
  | none => { base_url := kw_base_url.getD defaultOpenAIBaseUrl, api_key := api_key }

/-- `OpenAIModelProvider.generate_content` (openai_provider.py lines
187-228), with explicit recursion fuel.  When the requested name has a custom
endpoint, the call constructs a transient `OpenAIModelProvider` and invokes
`generate_content` on it with the alias-resolved name — the recursive case.
Otherwise the vendor call `super().generate_content` is performed with the
resolved name, modelled as the response `some (resolved)`.  `none` means the
recursion has not produced a response within `fuel` nested delegations. -/
def generate_content (tbl : Table) : Nat → Str → Option Str
  | 0, _ => none
  | fuel + 1, model_name =>
    let resolved := resolveModelName model_name
    if has_custom_endpoint tbl model_name then
      generate_content tbl fuel resolved
    else some resolved

/-- An underlying provider instance as the unified adapter sees it: an
identity tag (instances constructed at different times are different Python
objects) and its `count_tokens` behaviour. -/
structure Prov where
  tag : Nat
  countTokens : Str → Str → Nat

/-- The environment scan of `UnifiedOpenAIProvider._load_model_endpoints`
(unified_openai.py lines 31-37): every variable ending in `"_ENDPOINT"`,
regardless of namespace, keyed by `key[:-9].lower().replace('_', '-')` and
paired with `os.getenv(f"{key[:-9]}_API_KEY", "")`. -/
def u_load_model_endpoints_go (fullEnv : List (Str × Str)) :
    List (Str × Str) → Table → Table
  | [], acc => acc
  | (key, value) :: rest, acc =>
    u_load_model_endpoints_go fullEnv rest
      (if sufENDPOINT.isSuffixOf key then
        dictInsert (lowerDashStr (key.take (key.length - sufENDPOINT.length)))
          ⟨value,
           getenvD fullEnv (key.take (key.length - sufENDPOINT.length) ++ sufAPIKEY) []⟩
          acc
      else acc)

/-- `UnifiedOpenAIProvider._load_model_endpoints` (unified_openai.py lines
27-49): the all-namespace environment scan, then an optional merge from the
file named by `UNIFIED_ENDPOINTS_CONFIG` (`readCfg path = none` models a
failed read, caught and logged). -/
def u_load_model_endpoints (env : List (Str × Str))
    (readCfg : Str → Option (List (Str × EndpointEntry))) : Table :=
  let base := u_load_model_endpoints_go env env []
  match getenv env (str "UNIFIED_ENDPOINTS_CONFIG") with
  | none => base
  | some path =>
    if path = [] then base
    else
      match readCfg path with
      | none => base
      | some es => es.foldl (fun acc kv => dictInsert kv.1 kv.2 acc) base

/-- `UnifiedOpenAIProvider._get_endpoint_for_model` (unified_openai.py lines
51-61): an exact dictionary hit, then one case-insensitive pass — no
normalization and no dash-stripping fallback. -/
def u_get_endpoint_for_model (tbl : Table) (model_name : Str) : Option EndpointEntry :=
  match dictLookup tbl model_name with
  | some cfg => some cfg
  | none =>
    (tbl.find? (fun p => lowerStr p.1 = lowerStr model_name)).map (fun p => p.2)

/-- `UnifiedOpenAIProvider._get_underlying_provider` (unified_openai.py lines
63-85): answer from the per-model cache when possible; otherwise construct a
`CustomProvider` for a configured endpoint (`mkCustom`, modelling the
`CustomProvider(...)` constructor, with the import always available) or fall
back to `ModelProviderRegistry.get_provider_for_model` (`registry`); newly
resolved providers are stored in the cache.  Returns the resolved provider
and the updated cache. -/
def u_get_underlying_provider (tbl : Table) (mkCustom : EndpointEntry → Prov)
    (registry : Str → Option Prov) (model_name : Str)
    (cache : List (Str × Prov)) : Option Prov × List (Str × Prov) :=
  match dictLookup cache model_name with
  | some p => (some p, cache)
  | none =>
    match u_get_endpoint_for_model tbl model_name with
    | some ec =>
      let p := mkCustom ec
      (some p, dictInsert model_name p cache)
    | none =>
      match registry model_name with
      | some p => (some p, dictInsert model_name p cache)
      | none => (none, cache)

/-- `UnifiedOpenAIProvider.count_tokens` (unified_openai.py lines 157-163):
delegate to the underlying provider, or fall back to
`len(text) // 4` when none is resolvable.  The pair carries the cache
mutation performed by `_get_underlying_provider`. -/
def u_count_tokens (tbl : Table) (mkCustom : EndpointEntry → Prov)
    (registry : Str → Option Prov) (text model_name : Str)
    (cache : List (Str × Prov)) : Nat × List (Str × Prov) :=
  match u_get_underlying_provider tbl mkCustom registry model_name cache with
  | (none, c) => (text.length / 4, c)
  | (some p, c) => (p.countTokens text model_name, c)

/-- The table that `EndpointConfig("openai")` builds from the environment of
`src/tests/test_custom_endpoints.py` (`OPENAI_O3_ENDPOINT` /
`OPENAI_O3_API_KEY`), used for the delegation analysis. -/
def tblO3 : Table :=
  load_endpoints (str "openai")
    [(str "OPENAI_O3_ENDPOINT", str "https://custom-openai.com/v1"),
     (str "OPENAI_O3_API_KEY", str "test-api-key")]
    (fun _ => none)

/-- A two-key endpoint table (reachable through a JSON config file whose
`openai_endpoints` object lists `"gpt4"` before `"GPT-4"`), distinguishing
the code's interleaved matching from the spec's phase-ordered matching. -/
def tblPhases : Table :=
  [(str "gpt4", ⟨str "https://a/v1", str "ka"⟩),
   (str "GPT-4", ⟨str "https://b/v1", str "kb"⟩)]

/-- The lookup exactly as the claim words it: normalize the query, then try —
in order, each phase over the whole table — an exact key match, a
case-insensitive key match, and a dash-ignoring fallback match. -/
def get_endpoint_for_model_phase_ordered (tbl : Table) (model_name : Str) :
    Option EndpointEntry :=
  let n := normalize_model_name model_name
  match dictLookup tbl n with
  | some cfg => some cfg
  | none =>
    match (tbl.find? (fun p => lowerStr p.1 = lowerStr n)).map (fun p => p.2) with
    | some cfg => some cfg
    | none =>
      (tbl.find?
        (fun p => stripDashes (lowerStr p.1) = stripDashes (lowerStr n))).map
        (fun p => p.2)

/-- The lookup as amended: normalize the query, try an exact key match, then
scan the configured keys once in table order, returning the first key that
matches case-insensitively or after removing all dash characters from both
sides. -/
def get_endpoint_for_model_amended (tbl : Table) (model_name : Str) :
    Option EndpointEntry :=
  let n := normalize_model_name model_name
  match dictLookup tbl n with
  | some cfg => some cfg
  | none =>
    (tbl.find?
      (fun p => lowerStr p.1 = lowerStr n
        || stripDashes (lowerStr p.1) = stripDashes (lowerStr n))).map
      (fun p => p.2)

/-- The last environment entry whose key matches the endpoint pattern and
derives the given table key — the entry whose value survives the
`endpoints[model_name] = ...` assignments of the scan. -/
def lastDerived (pfx : Str) : List (Str × Str) → Str → Option (Str × Str)
  | [], _ => none
  | e :: rest, t =>
    match lastDerived pfx rest t with
    | some r => some r
    | none =>
      if envKeyMatches pfx e.1 && derivedModelName pfx e.1 = t then some e
      else none

/-- The last entry of a JSON-file entry list with the given key — the value
that survives `dict.update`. -/
def lastEntry : List (Str × EndpointEntry) → Str → Option EndpointEntry
  | [], _ => none
  | e :: rest, k =>
    match lastEntry rest k with
    | some v => some v
    | none => if e.1 = k then some e.2 else none

/-- The environment of the claim's concrete example (and of
`test_load_endpoints_from_env` in `src/tests/test_custom_endpoints.py`). -/
def envC4 : List (Str × Str) :=
  [(str "OPENAI_GPT4_ENDPOINT", str "https://x/v1"),
   (str "OPENAI_GPT4_API_KEY", str "k")]

/-- An environment whose only entry is a config-file path variable. -/
def envCfg : List (Str × Str) :=
  [(str "OPENAI_ENDPOINTS_CONFIG", str "/cfg.json")]

/-- The environment of the unified-adapter test
(`src/test_comprehensive.py`): `TEST_MODEL_ENDPOINT` / `TEST_MODEL_API_KEY`. -/
def envTest : List (Str × Str) :=
  [(str "TEST_MODEL_ENDPOINT", str "http://localhost:11434/v1"),
   (str "TEST_MODEL_API_KEY", str "test-key")]

/-- A provider constructor used to instantiate the unified-adapter theorems. -/
def mkZero : EndpointEntry → Prov := fun _ => ⟨0, fun _ _ => 0⟩

/-- A registry provider whose token count is the text length. -/
def provTok : Prov := ⟨1, fun t _ => t.length⟩

/-- A provider sitting in a pre-populated cache. -/
def provCached : Prov := ⟨2, fun _ _ => 5⟩

section CharLemmas

/-- Characters are equal exactly when their code points are. -/
theorem char_eq_iff_toNat {a b : Char} : a = b ↔ a.toNat = b.toNat := by
  constructor
  · intro h; rw [h]
  · intro h; exact Char.ext (UInt32.ext h)

/-- `Char.isUpper` as a code-point range. -/
theorem isUpper_iff {c : Char} : c.isUpper = true ↔ 65 ≤ c.toNat ∧ c.toNat ≤ 90 := by
  simp [Char.isUpper, Bool.and_eq_true, decide_eq_true_eq]
  exact Iff.rfl

/-- `Char.isLower` as a code-point range. -/
theorem isLower_iff {c : Char} : c.isLower = true ↔ 97 ≤ c.toNat ∧ c.toNat ≤ 122 := by
  simp [Char.isLower, Bool.and_eq_true, decide_eq_true_eq]
  exact Iff.rfl

/-- `Char.isDigit` as a code-point range. -/
theorem isDigit_iff {c : Char} : c.isDigit = true ↔ 48 ≤ c.toNat ∧ c.toNat ≤ 57 := by
  simp [Char.isDigit, Bool.and_eq_true, decide_eq_true_eq]
  exact Iff.rfl

/-- `Char.ofNat` round-trips on valid scalar values. -/
theorem toNat_ofNat_valid {n : Nat} (h : n.isValidChar) : (Char.ofNat n).toNat = n := by
  rw [Char.ofNat, dif_pos h]
  rfl

/-- The code point of `Char.toLower`. -/
theorem toLower_toNat (c : Char) :
    (Char.toLower c).toNat =
      if 65 ≤ c.toNat ∧ c.toNat ≤ 90 then c.toNat + 32 else c.toNat := by
  rw [Char.toLower]
  split
  · next h => exact toNat_ofNat_valid (Or.inl (by omega))
  · next h => rfl

/-- `Char.toLower` fixes characters outside the upper-case range. -/
theorem toLower_eq_self {c : Char} (h : ¬(65 ≤ c.toNat ∧ c.toNat ≤ 90)) :
    Char.toLower c = c := by
  rw [Char.toLower, if_neg h]

/-- No character lower-cases to an upper-case character. -/
theorem toLower_not_upper (c : Char) : (Char.toLower c).isUpper = false := by
  have h := toLower_toNat c
  rw [Bool.eq_false_iff]
  intro hu
  have hr := isUpper_iff.mp hu
  by_cases hc : 65 ≤ c.toNat ∧ c.toNat ≤ 90
  · rw [if_pos hc] at h; omega
  · rw [if_neg hc] at h; omega

/-- `Char.toLower` is idempotent. -/
theorem toLower_toLower (c : Char) : Char.toLower (Char.toLower c) = Char.toLower c := by
  apply toLower_eq_self
  have h := toLower_toNat c
  by_cases hc : 65 ≤ c.toNat ∧ c.toNat ≤ 90
  · rw [if_pos hc] at h; omega
  · rw [if_neg hc] at h; omega

/-- An alphanumeric character in the image of `Char.toLower` is a lower-case
letter or a digit. -/
theorem toLower_alnum (c : Char) (h : (Char.toLower c).isAlphanum = true) :
    (Char.toLower c).isLower = true ∨ (Char.toLower c).isDigit = true := by
  rw [Char.isAlphanum, Char.isAlpha, Bool.or_eq_true, Bool.or_eq_true] at h
  rcases h with (h | h) | h
  · rw [toLower_not_upper c] at h; cases h
  · exact Or.inl h
  · exact Or.inr h

end CharLemmas

section ListHelpers

/-- A map by a function that fixes every element is the identity. -/
theorem map_eq_self {α : Type} {f : α → α} {l : List α} (h : ∀ a ∈ l, f a = a) :
    l.map f = l := by
  induction l with
  | nil => rfl
  | cons a t ih =>
    simp only [List.map_cons, h a (List.mem_cons_self a t),
      ih (fun b hb => h b (List.mem_cons_of_mem a hb))]

end ListHelpers

section NormalizeLemmas

/-- Every character surviving `normalize_model_name` passed the alnum-or-dash
filter, is fixed by lower-casing, and is not an underscore. -/
theorem kept_char_facts {x : Str} {c : Char} (h : c ∈ normalize_model_name x) :
    (c.isAlphanum || c = '-') = true ∧ Char.toLower c = c ∧ c ≠ '_' := by
  unfold normalize_model_name at h
  rw [List.mem_filter] at h
  obtain ⟨hmem, hpred⟩ := h
  rw [List.mem_map] at hmem
  obtain ⟨b, hb, hcb⟩ := hmem
  rw [List.mem_map] at hb
  obtain ⟨a, _, hba⟩ := hb
  subst hba
  refine ⟨hpred, ?_, ?_⟩
  · by_cases hu : Char.toLower a = '_'
    · rw [if_pos hu] at hcb
      rw [← hcb]
      decide
    · rw [if_neg hu] at hcb
      rw [← hcb]
      exact toLower_toLower a
  · intro hC
    rw [hC] at hpred
    exact absurd hpred (by decide)

end NormalizeLemmas

/-- Claim C3: for every string `x`, `_normalize_model_name` returns only
lower-case alphanumerics and dashes (every underscore having been turned
into a dash by its second step and every other non-alphanumeric,
non-dash character removed by its filter), and normalization is idempotent:
`normalize(normalize(x)) = normalize(x)`. -/
theorem c3_normalize_charset_and_idempotent (x : Str) :
    (normalize_model_name x).all (fun c => c.isLower || c.isDigit || c = '-') = true
    ∧ normalize_model_name (normalize_model_name x) = normalize_model_name x := by
  constructor
  · rw [List.all_eq_true]
    intro c hc
    obtain ⟨hpred, hlow, _⟩ := kept_char_facts hc
    rw [Bool.or_eq_true] at hpred
    rw [Bool.or_eq_true, Bool.or_eq_true]
    rcases hpred with halnum | hdash
    · have hres := toLower_alnum c (by rw [hlow]; exact halnum)
      rw [hlow] at hres
      rcases hres with h | h
      · exact Or.inl (Or.inl h)
      · exact Or.inl (Or.inr h)
    · exact Or.inr hdash
  · have h1 : (normalize_model_name x).map Char.toLower = normalize_model_name x :=
      map_eq_self (fun c hc => (kept_char_facts hc).2.1)
    have h2 : (normalize_model_name x).map (fun c => if c = '_' then '-' else c)
        = normalize_model_name x :=
      map_eq_self (fun c hc => if_neg (kept_char_facts hc).2.2)
    have h3 : (normalize_model_name x).filter (fun c => c.isAlphanum || c = '-')
        = normalize_model_name x :=
      List.filter_eq_self.mpr (fun c hc => (kept_char_facts hc).1)
    calc normalize_model_name (normalize_model_name x)
        = (((normalize_model_name x).map Char.toLower).map
            (fun c => if c = '_' then '-' else c)).filter
            (fun c => c.isAlphanum || c = '-') := rfl
      _ = normalize_model_name x := by rw [h1, h2, h3]

/-- Claim C2, counterexample: on the table `[("gpt4", a), ("GPT-4", b)]` and
query `"gpt-4"`, the code returns the entry of `"gpt4"` — its per-key loop
tries the dash-stripped comparison on `"gpt4"` before ever trying the
case-insensitive comparison on `"GPT-4"` — while the claimed phase ordering
(exact, then case-insensitive over all keys, then dash-ignoring) returns the
entry of `"GPT-4"`. -/
theorem c2_lookup_order_counterexample :
    get_endpoint_for_model tblPhases (str "gpt-4")
        = some ⟨str "https://a/v1", str "ka"⟩
    ∧ get_endpoint_for_model_phase_ordered tblPhases (str "gpt-4")
        = some ⟨str "https://b/v1", str "kb"⟩
    ∧ get_endpoint_for_model tblPhases (str "gpt-4")
        ≠ get_endpoint_for_model_phase_ordered tblPhases (str "gpt-4") := by
  refine ⟨by decide, by decide, by decide⟩

/-- The per-key loop of `get_endpoint_for_model` equals a single scan for the
first key matching case-insensitively or dash-stripped. -/
theorem loop_eq_single_scan (nl : Str) (l : Table) :
    get_endpoint_for_model_loop nl l =
      (l.find? (fun p => lowerStr p.1 = nl
        || stripDashes (lowerStr p.1) = stripDashes nl)).map (fun p => p.2) := by
  induction l with
  | nil => rfl
  | cons hd t ih =>
    obtain ⟨ck, cfg⟩ := hd
    by_cases h1 : lowerStr ck = nl
    · simp [get_endpoint_for_model_loop, List.find?, h1]
    · by_cases h2 : stripDashes (lowerStr ck) = stripDashes nl
      · simp [get_endpoint_for_model_loop, List.find?, h1, h2]
      · simp [get_endpoint_for_model_loop, List.find?, h1, h2, ih]

/-- Claim C2 as amended: `get_endpoint_for_model` normalizes the query, tries
an exact key match, then scans the configured keys once in table order,
returning the first key that matches case-insensitively or after removing
all dash characters from both sides; it returns `none` when no key matches,
and (being a total function) never raises. -/
theorem c2_amended_lookup (tbl : Table) (m : Str) :
    get_endpoint_for_model tbl m = get_endpoint_for_model_amended tbl m := by
  simp only [get_endpoint_for_model, get_endpoint_for_model_amended]
  cases h : dictLookup tbl (normalize_model_name m) with
  | some cfg => rfl
  | none => simp only [loop_eq_single_scan]

/-- Claim C1: with `OPENAI_O3_ENDPOINT` configured (the repository's own test
environment), the requested name `"o3"` has a custom-endpoint override, yet
`generate_content` never returns: the transient adapter's delegated call
re-checks the endpoint for the alias-resolved name `"o3"`, which still has
the override, so for every recursion depth (`fuel`) the delegation chain has
not produced a response — the chain of nested delegations is infinite, not
finite as claimed. -/
theorem c1_generate_content_diverges :
    has_custom_endpoint tblO3 (str "o3") = true
    ∧ ∀ fuel, generate_content tblO3 fuel (str "o3") = none := by
  refine ⟨by decide, ?_⟩
  have hres : resolveModelName (str "o3") = str "o3" := by decide
  have hcust : has_custom_endpoint tblO3 (str "o3") = true := by decide
  intro fuel
  induction fuel with
  | zero => rfl
  | succ n ih => simp [generate_content, hres, hcust, ih]

section DictLemmas

/-- Lookup in the empty table. -/
theorem dictLookup_nil {α : Type} (t : Str) : dictLookup ([] : List (Str × α)) t = none := rfl

/-- Lookup steps through a cons cell. -/
theorem dictLookup_cons {α : Type} (a : Str × α) (l : List (Str × α)) (t : Str) :
    dictLookup (a :: l) t = if a.1 = t then some a.2 else dictLookup l t := by
  by_cases h : a.1 = t
  · rw [if_pos h]
    unfold dictLookup
    rw [List.find?_cons_of_pos _ (by simpa using h)]
    rfl
  · rw [if_neg h]
    unfold dictLookup
    rw [List.find?_cons_of_neg _ (by simpa using h)]

/-- Lookup after a `dict` assignment: the assigned key answers with the new
value, all other keys are untouched. -/
theorem dictLookup_insert {α : Type} (k : Str) (v : α) (l : List (Str × α)) (t : Str) :
    dictLookup (dictInsert k v l) t = if k = t then some v else dictLookup l t := by
  induction l with
  | nil =>
    show dictLookup [(k, v)] t = _
    rw [dictLookup_cons]
  | cons e rest ih =>
    obtain ⟨k0, v0⟩ := e
    by_cases h0 : k0 = k
    · show dictLookup (if k0 = k then (k, v) :: rest else _) t = _
      rw [if_pos h0, dictLookup_cons, dictLookup_cons]
      by_cases ht : k = t
      · rw [if_pos ht, if_pos ht]
      · rw [if_neg ht, if_neg ht, if_neg (fun hh => ht (h0 ▸ hh))]
    · show dictLookup (if k0 = k then _ else (k0, v0) :: dictInsert k v rest) t = _
      rw [if_neg h0, dictLookup_cons, dictLookup_cons, ih]
      by_cases h1 : k0 = t
      · rw [if_pos h1, if_neg (fun hk => h0 (h1.trans hk.symm)), if_pos h1]
      · rw [if_neg h1, if_neg h1]

/-- What the environment scan's table answers for a key `t`: the value and
API key of the last endpoint variable deriving `t`, else whatever the
accumulator answers. -/
theorem load_from_env_go_lookup (pfx : Str) (fullEnv : List (Str × Str))
    (l : List (Str × Str)) (acc : Table) (t : Str) :
    dictLookup (load_from_env_go pfx fullEnv l acc) t =
      match lastDerived pfx l t with
      | some e =>
          some ⟨e.2, getenvD fullEnv (pfx ++ sliceModelPart pfx e.1 ++ sufAPIKEY) []⟩
      | none => dictLookup acc t := by
  induction l generalizing acc with
  | nil => rfl
  | cons e rest ih =>
    obtain ⟨key, value⟩ := e
    simp only [load_from_env_go, lastDerived]
    rw [ih]
    cases hld : lastDerived pfx rest t with
    | some r => simp
    | none =>
      by_cases hm : envKeyMatches pfx key = true
      · by_cases ht : derivedModelName pfx key = t
        · simp [hm, ht, dictLookup_insert]
        · simp [hm, ht, dictLookup_insert]
      · simp [hm]

/-- The slice `key[len(prefix):-len("_ENDPOINT")]` recovers the model part of
a well-formed endpoint variable name. -/
theorem sliceModelPart_recover (pfx M : Str) :
    sliceModelPart pfx (pfx ++ M ++ sufENDPOINT) = M := by
  unfold sliceModelPart
  rw [List.append_assoc, List.drop_left]
  simp [List.take_left]

end DictLemmas

/-- Claim C4: with `OPENAI_GPT4_ENDPOINT=https://x/v1` and
`OPENAI_GPT4_API_KEY=k` (and nothing else), `EndpointConfig("openai")` loads
exactly the entry `"gpt4" ↦ {base_url: https://x/v1, api_key: k}` and
`get_endpoint_for_model "gpt4"` returns it; in general every variable named
`<pfx><MODEL>_ENDPOINT` matches the scan and derives the lowercased,
underscore-to-dash key of `<MODEL>`, and whenever such a variable is the last
one deriving that key, the loaded table maps the key to the variable's value
paired with the same-prefixed `_API_KEY` value (the empty string when that
variable is absent — `getenvD` with default `[]`). -/
theorem c4_env_loader (pfx : Str) (env : List (Str × Str)) (M v : Str) :
    (load_endpoints (str "openai") envC4 (fun _ => none)
        = [(str "gpt4", ⟨str "https://x/v1", str "k"⟩)]
      ∧ get_endpoint_for_model
          (load_endpoints (str "openai") envC4 (fun _ => none)) (str "gpt4")
          = some ⟨str "https://x/v1", str "k"⟩)
    ∧ (envKeyMatches pfx (pfx ++ M ++ sufENDPOINT) = true
      ∧ derivedModelName pfx (pfx ++ M ++ sufENDPOINT) = lowerDashStr M)
    ∧ (lastDerived pfx env (lowerDashStr M) = some (pfx ++ M ++ sufENDPOINT, v) →
        dictLookup (load_from_env pfx env) (lowerDashStr M)
          = some ⟨v, getenvD env (pfx ++ M ++ sufAPIKEY) []⟩) := by
  refine ⟨⟨by decide, by decide⟩, ⟨?_, ?_⟩, ?_⟩
  · unfold envKeyMatches
    rw [Bool.and_eq_true]
    constructor
    · rw [List.isPrefixOf_iff_prefix, List.append_assoc]
      exact List.prefix_append _ _
    · rw [List.isSuffixOf_iff_suffix]
      exact List.suffix_append _ _
  · unfold derivedModelName
    rw [sliceModelPart_recover]
  · intro h
    unfold load_from_env
    rw [load_from_env_go_lookup, h]
    simp only [sliceModelPart_recover]

/-- Witness for C4 at the concrete environment `envC4`: the general clause,
instantiated at the `OPENAI_GPT4_ENDPOINT` variable. -/
theorem c4_env_loader_witness :
    dictLookup (load_from_env (str "OPENAI_") envC4) (lowerDashStr (str "GPT4"))
      = some ⟨str "https://x/v1",
              getenvD envC4 (str "OPENAI_" ++ str "GPT4" ++ sufAPIKEY) []⟩ :=
  (c4_env_loader (str "OPENAI_") envC4 (str "GPT4") (str "https://x/v1")).2.2
    (by decide)

/-- Claim C5: when `OpenAIModelProvider` is constructed with a (non-empty)
model name for which the endpoint resolver reports an override, the adapter
is built against the override's base URL, and the override's API key replaces
the caller-supplied key exactly when it is non-empty; when no override is
reported and no `base_url` keyword is supplied, the base URL is the default
`https://api.openai.com/v1`. -/
theorem c5_init_override (tbl : Table) (api_key m : Str) (kw : Option Str) :
    (∀ ec, m ≠ [] → get_endpoint_for_model tbl m = some ec →
      openai_provider_init tbl api_key (some m) kw
        = ⟨ec.base_url, if ec.api_key ≠ [] then ec.api_key else api_key⟩)
    ∧ (get_endpoint_for_model tbl m = none →
      openai_provider_init tbl api_key (some m) none
        = ⟨defaultOpenAIBaseUrl, api_key⟩) := by
  constructor
  · intro ec hne hec
    simp only [openai_provider_init]
    rw [if_pos hne, hec]
  · intro hnone
    simp only [openai_provider_init]
    by_cases hne : m ≠ []
    · rw [if_pos hne, hnone]
      rfl
    · rw [if_neg hne]
      rfl

/-- Witness for C5: with the `OPENAI_O3_*` table the override (whose key
`"test-api-key"` is non-empty) wins over `"default-key"`, and with an empty
table the default base URL is used. -/
theorem c5_init_override_witness :
    openai_provider_init tblO3 (str "default-key") (some (str "o3")) none
      = ⟨str "https://custom-openai.com/v1", str "test-api-key"⟩
    ∧ openai_provider_init [] (str "default-key") (some (str "o3")) none
      = ⟨defaultOpenAIBaseUrl, str "default-key"⟩ := by
  constructor
  · have h := (c5_init_override tblO3 (str "default-key") (str "o3") none).1
      ⟨str "https://custom-openai.com/v1", str "test-api-key"⟩ (by decide) (by decide)
    exact h.trans (by decide)
  · exact (c5_init_override [] (str "default-key") (str "o3") none).2 (by decide)

/-- Claim C6: whenever the alias-resolved name is a key of
`SUPPORTED_MODELS` but the restriction policy rejects the
`(OPENAI, canonical, requested)` pair, `get_capabilities` raises (the
policy `ValueError`) and `validate_model_name` returns `false`; and whenever
the resolved name is not a key of `SUPPORTED_MODELS`, `get_capabilities`
raises the "Unsupported OpenAI model" `ValueError`. -/
theorem c6_restriction_enforcement (isAllowed : RestrictionPolicy) (m : Str) :
    ((dictLookup SUPPORTED_MODELS (resolveModelName m)).isSome = true →
      isAllowed ProviderType.OPENAI (resolveModelName m) m = false →
      get_capabilities isAllowed m = Except.error (notAllowedMsg m)
      ∧ validate_model_name isAllowed m = false)
    ∧ (dictLookup SUPPORTED_MODELS (resolveModelName m) = none →
      get_capabilities isAllowed m = Except.error (unsupportedMsg m)) := by
  constructor
  · intro hsome hnot
    cases hcaps : dictLookup SUPPORTED_MODELS (resolveModelName m) with
    | none => rw [hcaps] at hsome; cases hsome
    | some caps =>
      constructor
      · simp only [get_capabilities, hcaps]
        rw [if_neg (by rw [hnot]; exact Bool.false_ne_true)]
      · simp only [validate_model_name, hcaps]
        exact hnot
  · intro hnone
    simp only [get_capabilities, hnone]

/-- Witness for C6: an always-rejecting policy blocks the known name `"o3"`
through both entry points, and the unknown name `"bogus"` is reported
unsupported. -/
theorem c6_restriction_enforcement_witness :
    get_capabilities (fun _ _ _ => false) (str "o3")
        = Except.error (notAllowedMsg (str "o3"))
    ∧ validate_model_name (fun _ _ _ => false) (str "o3") = false
    ∧ get_capabilities (fun _ _ _ => false) (str "bogus")
        = Except.error (unsupportedMsg (str "bogus")) := by
  have h := (c6_restriction_enforcement (fun _ _ _ => false) (str "o3")).1
    (by decide) rfl
  exact ⟨h.1, h.2,
    (c6_restriction_enforcement (fun _ _ _ => false) (str "bogus")).2 (by decide)⟩

/-- What a `dict.update` fold answers for a key: the last file entry with
that key, else whatever the base table answers. -/
theorem foldl_insert_lookup (es : List (Str × EndpointEntry)) (acc : Table) (k : Str) :
    dictLookup (es.foldl (fun a kv => dictInsert kv.1 kv.2 a) acc) k =
      match lastEntry es k with
      | some v => some v
      | none => dictLookup acc k := by
  induction es generalizing acc with
  | nil => rfl
  | cons e rest ih =>
    simp only [List.foldl_cons, lastEntry]
    rw [ih]
    cases hld : lastEntry rest k with
    | some v => simp
    | none =>
      by_cases he : e.1 = k
      · simp [he, dictLookup_insert]
      · simp [he, dictLookup_insert]

/-- Claim C7: when the config variable is absent, or when it names a
(non-empty) path whose read fails (`readCfg path = none` — unreadable file or
malformed JSON, logged as a warning by the code), `_load_endpoints` yields
exactly the environment-derived table, i.e. the same table as when no file is
configured at all, and no error propagates (the function is total); when the
read succeeds, the file entries are merged on top, overriding
environment-derived entries with the same key (the last file entry for a key
wins, as under `dict.update`). -/
theorem c7_config_read_failure (pt : Str) (env : List (Str × Str))
    (readCfg : Str → Option (List (Str × EndpointEntry))) (path : Str) :
    (getenv env (configVarName pt) = none →
      load_endpoints pt env readCfg = load_from_env (providerPfx pt) env)
    ∧ (getenv env (configVarName pt) = some path → path ≠ [] →
      readCfg path = none →
      load_endpoints pt env readCfg = load_from_env (providerPfx pt) env
      ∧ load_endpoints pt env readCfg = load_endpoints pt env (fun _ => none))
    ∧ (∀ es k v, getenv env (configVarName pt) = some path → path ≠ [] →
      readCfg path = some es → lastEntry es k = some v →
      dictLookup (load_endpoints pt env readCfg) k = some v) := by
  refine ⟨?_, ?_, ?_⟩
  · intro hget
    simp only [load_endpoints, hget]
  · intro hget hne hfail
    constructor
    · simp only [load_endpoints, hget]
      rw [if_neg (by simpa using hne), hfail]
    · simp only [load_endpoints, hget]
      rw [if_neg (by simpa using hne), if_neg (by simpa using hne), hfail]
  · intro es k v hget hne hok hlast
    simp only [load_endpoints, hget]
    rw [if_neg (by simpa using hne), hok, foldl_insert_lookup, hlast]

/-- Witness for C7 at a concrete environment holding only
`OPENAI_ENDPOINTS_CONFIG=/cfg.json`: a failing read yields the (empty)
environment-derived table, and a successful read of one entry makes that
entry visible. -/
theorem c7_config_read_failure_witness :
    load_endpoints (str "openai") envCfg (fun _ => none)
      = load_from_env (providerPfx (str "openai")) envCfg
    ∧ dictLookup
        (load_endpoints (str "openai") envCfg
          (fun _ => some [(str "filemodel", ⟨str "https://f/v1", str "fk"⟩)]))
        (str "filemodel")
      = some ⟨str "https://f/v1", str "fk"⟩ := by
  constructor
  · exact ((c7_config_read_failure (str "openai") envCfg (fun _ => none)
      (str "/cfg.json")).2.1 (by decide) (by decide) rfl).1
  · exact (c7_config_read_failure (str "openai") envCfg
      (fun _ => some [(str "filemodel", ⟨str "https://f/v1", str "fk"⟩)])
      (str "/cfg.json")).2.2
      [(str "filemodel", ⟨str "https://f/v1", str "fk"⟩)]
      (str "filemodel") ⟨str "https://f/v1", str "fk"⟩
      (by decide) (by decide) rfl (by decide)

/-- Inserting a key that is absent appends the entry at the end. -/
theorem dictInsert_append {α : Type} (k : Str) (v : α) (l : List (Str × α))
    (h : dictLookup l k = none) : dictInsert k v l = l ++ [(k, v)] := by
  induction l with
  | nil => rfl
  | cons e rest ih =>
    obtain ⟨k0, v0⟩ := e
    rw [dictLookup_cons] at h
    by_cases he : k0 = k
    · rw [if_pos he] at h
      cases h
    · rw [if_neg he] at h
      show (if k0 = k then _ else (k0, v0) :: dictInsert k v rest) = _
      rw [if_neg he, ih h]
      rfl

/-- Claim C8: `_get_underlying_provider` answers repeated calls for the same
model name with the identical cached adapter instance (a cache hit returns
the cached value and leaves the cache untouched; after any resolving call,
calling again returns the same instance and the same cache), and the cache
is append-only: every cached entry survives every call unchanged, and a call
either leaves the cache identical or appends exactly one new entry. -/
theorem c8_provider_cache (tbl : Table) (mk : EndpointEntry → Prov)
    (reg : Str → Option Prov) (m : Str) (cache : List (Str × Prov)) :
    (∀ p, dictLookup cache m = some p →
      u_get_underlying_provider tbl mk reg m cache = (some p, cache))
    ∧ (∀ p, (u_get_underlying_provider tbl mk reg m cache).1 = some p →
      u_get_underlying_provider tbl mk reg m
          (u_get_underlying_provider tbl mk reg m cache).2
        = (some p, (u_get_underlying_provider tbl mk reg m cache).2))
    ∧ (∀ k q, dictLookup cache k = some q →
      dictLookup (u_get_underlying_provider tbl mk reg m cache).2 k = some q)
    ∧ ((u_get_underlying_provider tbl mk reg m cache).2 = cache
      ∨ ∃ p, dictLookup cache m = none
          ∧ (u_get_underlying_provider tbl mk reg m cache).2 = cache ++ [(m, p)]) := by
  cases hc : dictLookup cache m with
  | some p0 =>
    have hG : u_get_underlying_provider tbl mk reg m cache = (some p0, cache) := by
      simp only [u_get_underlying_provider, hc]
    refine ⟨?_, ?_, ?_, Or.inl (by rw [hG])⟩
    · intro p hp
      injection hp with hp
      subst hp
      exact hG
    · intro p hp
      replace hp : some p0 = some p := by rw [hG] at hp; exact hp
      injection hp with hp
      subst hp
      rw [hG]
      exact hG
    · intro k q hq
      rw [hG]
      exact hq
  | none =>
    cases he : u_get_endpoint_for_model tbl m with
    | some ec =>
      have hG : u_get_underlying_provider tbl mk reg m cache
          = (some (mk ec), dictInsert m (mk ec) cache) := by
        simp only [u_get_underlying_provider, hc, he]
      refine ⟨?_, ?_, ?_,
        Or.inr ⟨mk ec, rfl, by rw [hG]; exact dictInsert_append m (mk ec) cache hc⟩⟩
      · intro p hp
        cases hp
      · intro p hp
        replace hp : some (mk ec) = some p := by rw [hG] at hp; exact hp
        injection hp with hp
        subst hp
        rw [hG]
        have hlook : dictLookup (dictInsert m (mk ec) cache) m = some (mk ec) := by
          rw [dictLookup_insert, if_pos rfl]
        simp only [u_get_underlying_provider, hlook]
      · intro k q hq
        rw [hG, dictLookup_insert]
        by_cases hk : m = k
        · subst hk
          rw [hq] at hc
          cases hc
        · rw [if_neg hk]
          exact hq
    | none =>
      cases hr : reg m with
      | some p0 =>
        have hG : u_get_underlying_provider tbl mk reg m cache
            = (some p0, dictInsert m p0 cache) := by
          simp only [u_get_underlying_provider, hc, he, hr]
        refine ⟨?_, ?_, ?_,
          Or.inr ⟨p0, rfl, by rw [hG]; exact dictInsert_append m p0 cache hc⟩⟩
        · intro p hp
          cases hp
        · intro p hp
          replace hp : some p0 = some p := by rw [hG] at hp; exact hp
          injection hp with hp
          subst hp
          rw [hG]
          have hlook : dictLookup (dictInsert m p0 cache) m = some p0 := by
            rw [dictLookup_insert, if_pos rfl]
          simp only [u_get_underlying_provider, hlook]
        · intro k q hq
          rw [hG, dictLookup_insert]
          by_cases hk : m = k
          · subst hk
            rw [hq] at hc
            cases hc
          · rw [if_neg hk]
            exact hq
      | none =>
        have hG : u_get_underlying_provider tbl mk reg m cache = (none, cache) := by
          simp only [u_get_underlying_provider, hc, he, hr]
        refine ⟨?_, ?_, ?_, Or.inl (by rw [hG])⟩
        · intro p hp
          cases hp
        · intro p hp
          replace hp : (none : Option Prov) = some p := by rw [hG] at hp; exact hp
          cases hp
        · intro k q hq
          rw [hG]
          exact hq

/-- Witness for C8: a pre-populated cache entry for `"m"` is returned
identically and the cache is unchanged. -/
theorem c8_provider_cache_witness :
    u_get_underlying_provider [] mkZero (fun _ => none) (str "m")
        [(str "m", provCached)]
      = (some provCached, [(str "m", provCached)]) :=
  (c8_provider_cache [] mkZero (fun _ => none) (str "m")
    [(str "m", provCached)]).1 provCached rfl

/-- Claim C9: `count_tokens` returns `len(text) // 4` exactly when no
underlying provider is resolvable for the model name, and the delegate
provider's own count otherwise. -/
theorem c9_count_tokens_fallback (tbl : Table) (mk : EndpointEntry → Prov)
    (reg : Str → Option Prov) (text m : Str) (cache : List (Str × Prov)) :
    ((u_get_underlying_provider tbl mk reg m cache).1 = none →
      (u_count_tokens tbl mk reg text m cache).1 = text.length / 4)
    ∧ (∀ p, (u_get_underlying_provider tbl mk reg m cache).1 = some p →
      (u_count_tokens tbl mk reg text m cache).1 = p.countTokens text m) := by
  rcases hG : u_get_underlying_provider tbl mk reg m cache with ⟨r, c⟩
  constructor
  · intro h1
    replace h1 : r = none := h1
    subst h1
    simp only [u_count_tokens, hG]
  · intro p hp
    replace hp : r = some p := hp
    subst hp
    simp only [u_count_tokens, hG]

/-- Witness for C9: with nothing configured and an empty registry the count
of an 8-character text is `8 / 4 = 2`; with a registry provider counting
characters it is the delegate's `8`. -/
theorem c9_count_tokens_fallback_witness :
    (u_count_tokens [] mkZero (fun _ => none) (str "abcdefgh") (str "m") []).1
      = (str "abcdefgh").length / 4
    ∧ (u_count_tokens [] mkZero (fun _ => some provTok) (str "abcdefgh")
        (str "m") []).1 = provTok.countTokens (str "abcdefgh") (str "m") := by
  constructor
  · exact (c9_count_tokens_fallback [] mkZero (fun _ => none) (str "abcdefgh")
      (str "m") []).1 rfl
  · exact (c9_count_tokens_fallback [] mkZero (fun _ => some provTok)
      (str "abcdefgh") (str "m") []).2 provTok rfl

/-- Claim C10: unlike `EndpointConfig.get_endpoint_for_model`, the unified
adapter's `_get_endpoint_for_model` performs no normalization and no
dash-ignoring fallback: for every endpoint map, a query returns an entry if
and only if some configured key equals it exactly or case-insensitively; in
particular, against the table loaded from `TEST_MODEL_ENDPOINT` (configured
key `"test-model"`), the query `"test_model"` — differing only by underscore
versus dash — returns no match. -/
theorem c10_unified_lookup_exact_or_case_only :
    (∀ (tbl : Table) (m : Str),
      (u_get_endpoint_for_model tbl m).isSome = true
        ↔ ∃ p ∈ tbl, p.1 = m ∨ lowerStr p.1 = lowerStr m)
    ∧ u_load_model_endpoints envTest (fun _ => none)
        = [(str "test-model", ⟨str "http://localhost:11434/v1", str "test-key"⟩)]
    ∧ u_get_endpoint_for_model
        [(str "test-model", ⟨str "http://localhost:11434/v1", str "test-key"⟩)]
        (str "test_model") = none := by
  refine ⟨?_, by decide, by decide⟩
  intro tbl m
  cases hd : dictLookup tbl m with
  | some cfg =>
    simp only [u_get_endpoint_for_model, hd, Option.isSome_some, true_iff]
    unfold dictLookup at hd
    cases hf : tbl.find? (fun p => p.1 = m) with
    | none => rw [hf] at hd; cases hd
    | some q =>
      refine ⟨q, List.mem_of_find?_eq_some hf, Or.inl ?_⟩
      have := List.find?_some hf
      simpa using this
  | none =>
    simp only [u_get_endpoint_for_model, hd]
    rw [Option.isSome_map']
    rw [List.find?_isSome]
    constructor
    · rintro ⟨x, hx, hpx⟩
      exact ⟨x, hx, Or.inr (by simpa using hpx)⟩
    · rintro ⟨x, hx, hpx⟩
      refine ⟨x, hx, ?_⟩
      rcases hpx with h | h
      · simp [h]
      · simpa using h

end ZenMcp
